import Mathlib

/-!
Verification of the wahoo-ble-sniffer telemetry pipeline.

This file gives a shallow embedding of the decoding, rate-calculation,
inactivity-detection and frame-encoding code of the repository:

* `cpParse` embeds `CyclingPowerParser.parse` of
  `UnityIntegration/wahoo_unity_bridge.py` (the bridge variant);
* `cpParseLogger` embeds `CyclingPowerParser.parse` of `wahoo_ble_logger.py`
  (the SQLite-logger variant);
* `hrParseLogger` embeds `HeartRateParser.parse` of `wahoo_ble_logger.py`,
  `hrParseBridge` the bridge variant;
* `calcCadence` / `calcSpeed` embed `WahooDeviceHandler.calculate_cadence`
  and `calculate_speed`;
* `powerCallback`, `hrCallback` and `zeroTick` embed the notification
  callbacks and `zero_detection_loop` of the bridge;
* `packDfffi` / `unpackDfffi` embed the `struct.pack('dfffi', ...)` frame
  layout of `CyclingData.to_binary`.

Python `float` arithmetic is modelled by exact rational arithmetic (`ℚ`);
Python byte strings by `List Nat` with each element a byte value; a raised
exception by the `none` case of an `Option` result.  Functions whose name
carries a `Checked` suffix replace every byte access of the original code
by a bounds-checked access, so that `checked = some total` states that the
original never reads past the payload length.
-/

/-- Little-endian value of a byte list, as `int.from_bytes(..., 'little')`. -/
def fromLEList : List Nat → Nat
  | [] => 0
  | b :: rest => b + 256 * fromLEList rest

/-- Little-endian read of `n` bytes at offset `off`; bytes beyond the end of
the list are simply absent, matching Python slice semantics
(`int.from_bytes(data[off:off+n], 'little')`). -/
def readLE (data : List Nat) (off n : Nat) : Nat :=
  fromLEList ((data.drop off).take n)

/-- Bounds-checked little-endian read: fails (models a raised `struct.error`,
or flags an out-of-bounds access) unless all `n` bytes exist. -/
def readLEChecked (data : List Nat) (off n : Nat) : Option Nat :=
  if off + n ≤ data.length then some (readLE data off n) else none

/-- Two's-complement interpretation of a 16-bit unsigned value, as
`int.from_bytes(..., signed=True)` / `struct.unpack('<h', ...)`. -/
def toSigned16 (u : Nat) : ℤ :=
  if u < 32768 then (u : ℤ) else (u : ℤ) - 65536

/-- Two's-complement interpretation of a 32-bit unsigned value. -/
def toSigned32 (u : Nat) : ℤ :=
  if u < 2147483648 then (u : ℤ) else (u : ℤ) - 4294967296

/-- Result of the bridge-variant Cycling Power parser: the dictionary keys
`power`, `wheel_revs`, `wheel_time`, `crank_revs`, `crank_time`. -/
@[ext]
structure CPFields where
  power : Option ℤ := none
  wheelRevs : Option Nat := none
  wheelTime : Option Nat := none
  crankRevs : Option Nat := none
  crankTime : Option Nat := none
deriving DecidableEq, Repr

/-- Embedding of `CyclingPowerParser.parse` of
`UnityIntegration/wahoo_unity_bridge.py` (lines 127-169). -/
def cpParse (data : List Nat) : CPFields :=
  if data.length < 4 then {} else
  let flags := readLE data 0 2
  let power := toSigned16 (readLE data 2 2)
  let offset := 4
  let offset := if flags &&& 0x0001 ≠ 0 then offset + 1 else offset
  let offset := if flags &&& 0x0004 ≠ 0 then offset + 2 else offset
  let wheel : Option (Nat × Nat) × Nat :=
    if flags &&& 0x0010 ≠ 0 ∧ offset + 6 ≤ data.length then
      (some (readLE data offset 4, readLE data (offset + 4) 2), offset + 6)
    else (none, offset)
  let offset := wheel.2
  let crank : Option (Nat × Nat) :=
    if flags &&& 0x0020 ≠ 0 ∧ offset + 4 ≤ data.length then
      some (readLE data offset 2, readLE data (offset + 2) 2)
    else none
  { power := some power
    wheelRevs := wheel.1.map Prod.fst
    wheelTime := wheel.1.map Prod.snd
    crankRevs := crank.map Prod.fst
    crankTime := crank.map Prod.snd }

/-- The bridge-variant Cycling Power parser with every byte access
bounds-checked.  `cpParseChecked data = some (cpParse data)` states that the
original parser never reads past the payload length. -/
def cpParseChecked (data : List Nat) : Option CPFields :=
  if data.length < 4 then some {} else
  (readLEChecked data 0 2).bind fun flags =>
  (readLEChecked data 2 2).bind fun praw =>
  let power := toSigned16 praw
  let offset := 4
  let offset := if flags &&& 0x0001 ≠ 0 then offset + 1 else offset
  let offset := if flags &&& 0x0004 ≠ 0 then offset + 2 else offset
  (if flags &&& 0x0010 ≠ 0 ∧ offset + 6 ≤ data.length then
    (readLEChecked data offset 4).bind fun wr =>
    (readLEChecked data (offset + 4) 2).bind fun wt =>
    some (some (wr, wt), offset + 6)
  else some (none, offset)).bind fun wheel =>
  (if flags &&& 0x0020 ≠ 0 ∧ wheel.2 + 4 ≤ data.length then
    (readLEChecked data wheel.2 2).bind fun cr =>
    (readLEChecked data (wheel.2 + 2) 2).bind fun ct =>
    some (some (cr, ct))
  else some none).bind fun crank =>
  some { power := some power
         wheelRevs := wheel.1.map Prod.fst
         wheelTime := wheel.1.map Prod.snd
         crankRevs := crank.map Prod.fst
         crankTime := crank.map Prod.snd }

theorem cpParseChecked_eq (data : List Nat) :
    cpParseChecked data = some (cpParse data) := by
  unfold cpParseChecked cpParse
  by_cases h4 : data.length < 4
  · rw [if_pos h4, if_pos h4]
  · have h4' : 4 ≤ data.length := Nat.not_lt.mp h4
    simp only [if_neg h4]
    rw [show readLEChecked data 0 2 = some (readLE data 0 2) by
      simp [readLEChecked]; omega]
    rw [show readLEChecked data 2 2 = some (readLE data 2 2) by
      simp [readLEChecked]; omega]
    simp only [Option.some_bind]
    set flags := readLE data 0 2 with hflags
    set o2 : Nat := if flags &&& 4 ≠ 0 then
        (if flags &&& 1 ≠ 0 then 4 + 1 else 4) + 2
      else (if flags &&& 1 ≠ 0 then 4 + 1 else 4) with ho2
    by_cases hw : flags &&& 16 ≠ 0 ∧ o2 + 6 ≤ data.length
    · rw [if_pos hw, if_pos hw]
      rw [show readLEChecked data o2 4 = some (readLE data o2 4) by
        simp [readLEChecked]; omega]
      rw [show readLEChecked data (o2 + 4) 2 = some (readLE data (o2 + 4) 2) by
        simp [readLEChecked]; omega]
      simp only [Option.some_bind]
      by_cases hc : flags &&& 32 ≠ 0 ∧ (o2 + 6) + 4 ≤ data.length
      · rw [if_pos hc, if_pos hc]
        rw [show readLEChecked data (o2 + 6) 2 = some (readLE data (o2 + 6) 2) by
          simp [readLEChecked]; omega]
        rw [show readLEChecked data (o2 + 6 + 2) 2
              = some (readLE data (o2 + 6 + 2) 2) by
          simp [readLEChecked]; omega]
        simp
      · rw [if_neg hc, if_neg hc]
        simp
    · rw [if_neg hw, if_neg hw]
      simp only [Option.some_bind]
      by_cases hc : flags &&& 32 ≠ 0 ∧ o2 + 4 ≤ data.length
      · rw [if_pos hc, if_pos hc]
        rw [show readLEChecked data o2 2 = some (readLE data o2 2) by
          simp [readLEChecked]; omega]
        rw [show readLEChecked data (o2 + 2) 2 = some (readLE data (o2 + 2) 2) by
          simp [readLEChecked]; omega]
        simp
      · rw [if_neg hc, if_neg hc]
        simp

/-- Result of the SQLite-logger Cycling Power / FTMS parsers: the dictionary
keys `power_w`, `cadence_rpm`, `speed_kph` inspected by
`WahooDevice.notification_handler`. -/
structure CPLoggerResult where
  powerW : Option ℤ := none
  cadenceRpm : Option ℚ := none
  speedKph : Option ℚ := none
deriving DecidableEq, Repr

/-- One guarded offset advance of the logger parser, embedding the pattern
`if (flags & mask) and offset + need < len(data): offset += width`. -/
def cpSkipAdvance (flags len o mask need width : Nat) : Nat :=
  if flags &&& mask ≠ 0 ∧ o + need < len then o + width else o

/-- Embedding of `CyclingPowerParser.parse` of `wahoo_ble_logger.py`
(lines 141-227).  Crank revolution data is read (bound) but never stored in
the result; wheel revolution data and all further optional fields only
advance the offset. -/
def cpParseLogger (data : List Nat) : CPLoggerResult :=
  if data.length < 4 then {} else
  let flags := readLE data 0 2
  let pw : Option ℤ × Nat :=
    if 2 + 1 < data.length then (some (toSigned16 (readLE data 2 2)), 2 + 2)
    else (none, 2)
  let offset := pw.2
  let offset := cpSkipAdvance flags data.length offset 0x01 0 1
  let offset := cpSkipAdvance flags data.length offset 0x04 1 2
  let offset := cpSkipAdvance flags data.length offset 0x10 5 6
  let crank : Option (Nat × Nat) × Nat :=
    if flags &&& 0x20 ≠ 0 ∧ offset + 3 < data.length then
      (some (readLE data offset 2, readLE data (offset + 2) 2), offset + 4)
    else (none, offset)
  let offset := crank.2
  let offset := cpSkipAdvance flags data.length offset 0x40 3 4
  let offset := cpSkipAdvance flags data.length offset 0x80 3 4
  let offset := cpSkipAdvance flags data.length offset 0x0F00 2 3
  let offset := cpSkipAdvance flags data.length offset 0x1000 1 2
  let offset := cpSkipAdvance flags data.length offset 0x2000 1 2
  let _offset := cpSkipAdvance flags data.length offset 0x4000 1 2
  { powerW := pw.1, cadenceRpm := none, speedKph := none }

/-- The logger-variant Cycling Power parser with every byte access
bounds-checked (`struct.unpack_from` raises past the end of the buffer). -/
def cpParseLoggerChecked (data : List Nat) : Option CPLoggerResult :=
  if data.length < 4 then some {} else
  (readLEChecked data 0 2).bind fun flags =>
  (if 2 + 1 < data.length then
    (readLEChecked data 2 2).bind fun praw => some (some (toSigned16 praw), 2 + 2)
  else some ((none : Option ℤ), 2)).bind fun pw =>
  let offset := pw.2
  let offset := cpSkipAdvance flags data.length offset 0x01 0 1
  let offset := cpSkipAdvance flags data.length offset 0x04 1 2
  let offset := cpSkipAdvance flags data.length offset 0x10 5 6
  (if flags &&& 0x20 ≠ 0 ∧ offset + 3 < data.length then
    (readLEChecked data offset 2).bind fun cr =>
    (readLEChecked data (offset + 2) 2).bind fun ct =>
    some (some (cr, ct), offset + 4)
  else some ((none : Option (Nat × Nat)), offset)).bind fun crank =>
  let offset := crank.2
  let offset := cpSkipAdvance flags data.length offset 0x40 3 4
  let offset := cpSkipAdvance flags data.length offset 0x80 3 4
  let offset := cpSkipAdvance flags data.length offset 0x0F00 2 3
  let offset := cpSkipAdvance flags data.length offset 0x1000 1 2
  let offset := cpSkipAdvance flags data.length offset 0x2000 1 2
  let _offset := cpSkipAdvance flags data.length offset 0x4000 1 2
  some { powerW := pw.1, cadenceRpm := none, speedKph := none }

theorem cpParseLoggerChecked_eq (data : List Nat) :
    cpParseLoggerChecked data = some (cpParseLogger data) := by
  by_cases h4 : data.length < 4
  · simp [cpParseLoggerChecked, cpParseLogger, h4]
  · have h4' : 4 ≤ data.length := Nat.not_lt.mp h4
    have hp : (2:Nat) + 1 < data.length := by omega
    have hflags : readLEChecked data 0 2 = some (readLE data 0 2) := by
      simp [readLEChecked]; omega
    have hpw : readLEChecked data 2 2 = some (readLE data 2 2) := by
      simp [readLEChecked]; omega
    simp only [cpParseLoggerChecked, cpParseLogger, if_neg h4, hflags, hpw, hp,
      if_true, Option.some_bind]
    have hbind : ∀ (o : Option (Option (Nat × Nat) × Nat)) (r : CPLoggerResult),
        o.isSome = true → o.bind (fun _ => some r) = some r := by
      intro o r h
      cases o
      · simp at h
      · simp
    apply hbind
    set o3 : Nat := cpSkipAdvance (readLE data 0 2) data.length
        (cpSkipAdvance (readLE data 0 2) data.length
          (cpSkipAdvance (readLE data 0 2) data.length (2 + 2) 1 0 1) 4 1 2) 16 5 6 with ho3
    by_cases hc : readLE data 0 2 &&& 32 ≠ 0 ∧ o3 + 3 < data.length
    · rw [if_pos hc]
      have hc2 := hc.2
      rw [show readLEChecked data o3 2 = some (readLE data o3 2) by
        simp [readLEChecked]; omega]
      rw [show readLEChecked data (o3 + 2) 2 = some (readLE data (o3 + 2) 2) by
        simp [readLEChecked]; omega]
      simp
    · rw [if_neg hc]
      simp

theorem readLE_take (data : List Nat) (k o n : Nat) (h : o + n ≤ k) :
    readLE (data.take k) o n = readLE data o n := by
  have hmin : min n (k - o) = n := by omega
  unfold readLE
  rw [List.drop_take, List.take_take, hmin]

/-- Byte offset of the wheel-revolution field of a Cycling-Power payload per
the spec layout: flags word (2) + mandatory power (2) + pedal-power-balance
(+1 if bit 0) + accumulated-torque (+2 if bit 2), flags consumed in ascending
bit order. -/
def cpWheelStart (flags : Nat) : Nat :=
  4 + (if flags &&& 1 ≠ 0 then 1 else 0) + (if flags &&& 4 ≠ 0 then 2 else 0)

/-- Byte offset of the crank-revolution field per the spec layout: the wheel
field (uint32 + uint16 = 6 bytes) precedes it when flag bit 4 is set. -/
def cpCrankStart (flags : Nat) : Nat :=
  cpWheelStart flags + (if flags &&& 16 ≠ 0 then 6 else 0)

/-- Guard of the bridge parser's wheel branch: flag bit 4 set and six more
bytes available at the running offset (which always equals `cpWheelStart`). -/
def cpWheelOk (flags len : Nat) : Prop :=
  flags &&& 16 ≠ 0 ∧ cpWheelStart flags + 6 ≤ len

instance (flags len : Nat) : Decidable (cpWheelOk flags len) := by
  unfold cpWheelOk
  infer_instance

/-- Running offset of the bridge parser after the wheel branch: advanced by 6
only when the wheel branch fired. -/
def cpOffset3 (flags len : Nat) : Nat :=
  if cpWheelOk flags len then cpWheelStart flags + 6 else cpWheelStart flags

/-- Guard of the bridge parser's crank branch, at the running offset. -/
def cpCrankOk (flags len : Nat) : Prop :=
  flags &&& 32 ≠ 0 ∧ cpOffset3 flags len + 4 ≤ len

instance (flags len : Nat) : Decidable (cpCrankOk flags len) := by
  unfold cpCrankOk
  infer_instance

/-- Modelled from the claim (spec sections 4.1 and 8): decoding a
Cycling-Power payload truncated to its first `k` bytes is claimed to return
exactly the fields of the full payload wholly contained in those `k` bytes,
each at its spec offset. -/
def cpSpecFields (data : List Nat) (k : Nat) : CPFields :=
  let flags := readLE data 0 2
  { power := if 4 ≤ k then some (toSigned16 (readLE data 2 2)) else none
    wheelRevs := if flags &&& 16 ≠ 0 ∧ cpWheelStart flags + 6 ≤ k then
        some (readLE data (cpWheelStart flags) 4) else none
    wheelTime := if flags &&& 16 ≠ 0 ∧ cpWheelStart flags + 6 ≤ k then
        some (readLE data (cpWheelStart flags + 4) 2) else none
    crankRevs := if flags &&& 32 ≠ 0 ∧ cpCrankStart flags + 4 ≤ k then
        some (readLE data (cpCrankStart flags) 2) else none
    crankTime := if flags &&& 32 ≠ 0 ∧ cpCrankStart flags + 4 ≤ k then
        some (readLE data (cpCrankStart flags + 2) 2) else none }

theorem cpParse_offset_eq (flags : Nat) :
    (if flags &&& 4 ≠ 0 then (if flags &&& 1 ≠ 0 then 4 + 1 else 4) + 2
     else (if flags &&& 1 ≠ 0 then 4 + 1 else 4)) = cpWheelStart flags := by
  unfold cpWheelStart
  split_ifs <;> omega

theorem cpParse_char (d : List Nat) (h4 : 4 ≤ d.length) :
    cpParse d =
      { power := some (toSigned16 (readLE d 2 2))
        wheelRevs := if cpWheelOk (readLE d 0 2) d.length then
            some (readLE d (cpWheelStart (readLE d 0 2)) 4) else none
        wheelTime := if cpWheelOk (readLE d 0 2) d.length then
            some (readLE d (cpWheelStart (readLE d 0 2) + 4) 2) else none
        crankRevs := if cpCrankOk (readLE d 0 2) d.length then
            some (readLE d (cpOffset3 (readLE d 0 2) d.length) 2) else none
        crankTime := if cpCrankOk (readLE d 0 2) d.length then
            some (readLE d (cpOffset3 (readLE d 0 2) d.length + 2) 2) else none } := by
  simp only [cpParse, if_neg (by omega : ¬ d.length < 4)]
  rw [cpParse_offset_eq]
  by_cases hw : cpWheelOk (readLE d 0 2) d.length
  · have hw' : readLE d 0 2 &&& 16 ≠ 0 ∧ cpWheelStart (readLE d 0 2) + 6 ≤ d.length := hw
    rw [if_pos hw']
    have ho3 : cpOffset3 (readLE d 0 2) d.length = cpWheelStart (readLE d 0 2) + 6 := by
      unfold cpOffset3
      rw [if_pos hw]
    by_cases hc : cpCrankOk (readLE d 0 2) d.length
    · have hc' : readLE d 0 2 &&& 32 ≠ 0 ∧ (cpWheelStart (readLE d 0 2) + 6) + 4 ≤ d.length := by
        obtain ⟨h1, h2⟩ := hc
        rw [ho3] at h2
        exact ⟨h1, h2⟩
      rw [if_pos hc']
      simp [hw, hc, ho3]
    · have hc' : ¬ (readLE d 0 2 &&& 32 ≠ 0 ∧ (cpWheelStart (readLE d 0 2) + 6) + 4 ≤ d.length) := by
        rw [show cpWheelStart (readLE d 0 2) + 6 = cpOffset3 (readLE d 0 2) d.length from ho3.symm]
        exact hc
      rw [if_neg hc']
      simp [hw, hc]
  · have hw' : ¬ (readLE d 0 2 &&& 16 ≠ 0 ∧ cpWheelStart (readLE d 0 2) + 6 ≤ d.length) := hw
    rw [if_neg hw']
    have ho3 : cpOffset3 (readLE d 0 2) d.length = cpWheelStart (readLE d 0 2) := by
      unfold cpOffset3
      rw [if_neg hw]
    by_cases hc : cpCrankOk (readLE d 0 2) d.length
    · have hc' : readLE d 0 2 &&& 32 ≠ 0 ∧ cpWheelStart (readLE d 0 2) + 4 ≤ d.length := by
        obtain ⟨h1, h2⟩ := hc
        rw [ho3] at h2
        exact ⟨h1, h2⟩
      rw [if_pos hc']
      simp [hw, hc, ho3]
    · have hc' : ¬ (readLE d 0 2 &&& 32 ≠ 0 ∧ cpWheelStart (readLE d 0 2) + 4 ≤ d.length) := by
        rw [show cpWheelStart (readLE d 0 2) = cpOffset3 (readLE d 0 2) d.length from ho3.symm]
        exact hc
      rw [if_neg hc']
      simp [hw, hc]

/-- A full 14-byte Cycling-Power payload with flags 0x0030 (wheel and crank
revolution data both present): power 0, wheel revs 1, wheel event time 1024,
crank revs 2, crank event time 512. -/
def c1FullPayload : List Nat :=
  [0x30, 0x00, 0x00, 0x00, 0x01, 0x00, 0x00, 0x00, 0x00, 0x04, 0x02, 0x00, 0x00, 0x02]

/-- C1, counterexample.  Truncating `c1FullPayload` after its first 8 bytes
cuts inside the flagged wheel-revolution field (spec bytes 4..10); the claim
says the decode of that prefix contains exactly the fields fully contained in
the prefix, i.e. only the mandatory power.  The bridge decoder instead leaves
the offset unadvanced and parses crank data out of the wheel field's first
bytes, returning `crank_revs = 1` (the wheel count's low bytes), so the decode
of the prefix is not the set of fields fully contained in the prefix. -/
theorem c1_truncated_prefix_cex :
    cpParse (c1FullPayload.take 8) ≠ cpSpecFields c1FullPayload 8
    ∧ (cpParse (c1FullPayload.take 8)).crankRevs = some 1
    ∧ (cpSpecFields c1FullPayload 8).crankRevs = none := by
  refine ⟨by decide, by decide, by decide⟩

/-- C1, amended.  For every Cycling-Power payload and every truncation point
`k ≥ 4`: both decoder variants access only bytes inside the prefix and return
without failure, and — whenever the truncation does not cut a flagged wheel
field (flag bit 4 clear, or the wheel field wholly inside the prefix) — the
decode of the prefix is exactly the set of fields fully contained in the
prefix, each at its spec offset.  When the cut lands inside a flagged wheel
field the running offset is not advanced, so flagged crank data may instead
be parsed from misaligned bytes (see the counterexample). -/
theorem c1_truncated_prefix_amended (data : List Nat) (k : Nat)
    (h4 : 4 ≤ k) (hk : k ≤ data.length) :
    cpParseChecked (data.take k) = some (cpParse (data.take k))
    ∧ cpParseLoggerChecked (data.take k) = some (cpParseLogger (data.take k))
    ∧ ((readLE data 0 2 &&& 16 = 0 ∨ cpWheelStart (readLE data 0 2) + 6 ≤ k) →
        cpParse (data.take k) = cpSpecFields data k) := by
  refine ⟨cpParseChecked_eq _, cpParseLoggerChecked_eq _, fun hnt => ?_⟩
  have hlen : (data.take k).length = k := by
    rw [List.length_take]
    omega
  have hflags : readLE (data.take k) 0 2 = readLE data 0 2 :=
    readLE_take data k 0 2 (by omega)
  have h4' : 4 ≤ (data.take k).length := by omega
  have hco : cpOffset3 (readLE data 0 2) k = cpCrankStart (readLE data 0 2) := by
    unfold cpOffset3 cpCrankStart cpWheelOk
    by_cases h16 : readLE data 0 2 &&& 16 ≠ 0
    · have hfit : cpWheelStart (readLE data 0 2) + 6 ≤ k := by
        rcases hnt with h | h
        · exact absurd h h16
        · exact h
      rw [if_pos ⟨h16, hfit⟩, if_pos h16]
    · rw [if_neg (fun hh => h16 hh.1), if_neg h16]
      omega
  rw [cpParse_char _ h4', hflags, hlen]
  simp only [cpSpecFields]
  congr 1
  · rw [if_pos h4, readLE_take data k 2 2 (by omega)]
  · by_cases hw : cpWheelOk (readLE data 0 2) k
    · rw [if_pos hw,
        if_pos (show readLE data 0 2 &&& 16 ≠ 0 ∧ cpWheelStart (readLE data 0 2) + 6 ≤ k from hw),
        readLE_take data k _ 4 (by have := hw.2; omega)]
    · rw [if_neg hw,
        if_neg (show ¬ (readLE data 0 2 &&& 16 ≠ 0 ∧ cpWheelStart (readLE data 0 2) + 6 ≤ k) from hw)]
  · by_cases hw : cpWheelOk (readLE data 0 2) k
    · rw [if_pos hw,
        if_pos (show readLE data 0 2 &&& 16 ≠ 0 ∧ cpWheelStart (readLE data 0 2) + 6 ≤ k from hw),
        readLE_take data k _ 2 (by have := hw.2; omega)]
    · rw [if_neg hw,
        if_neg (show ¬ (readLE data 0 2 &&& 16 ≠ 0 ∧ cpWheelStart (readLE data 0 2) + 6 ≤ k) from hw)]
  · by_cases hc : cpCrankOk (readLE data 0 2) k
    · have hc2 : cpCrankStart (readLE data 0 2) + 4 ≤ k := by
        have := hc.2
        rw [hco] at this
        exact this
      rw [if_pos hc, if_pos ⟨hc.1, hc2⟩, hco, readLE_take data k _ 2 (by omega)]
    · have hcn : ¬ (readLE data 0 2 &&& 32 ≠ 0 ∧ cpCrankStart (readLE data 0 2) + 4 ≤ k) := by
        intro hh
        exact hc ⟨hh.1, by rw [hco]; exact hh.2⟩
      rw [if_neg hc, if_neg hcn]
  · by_cases hc : cpCrankOk (readLE data 0 2) k
    · have hc2 : cpCrankStart (readLE data 0 2) + 4 ≤ k := by
        have := hc.2
        rw [hco] at this
        exact this
      rw [if_pos hc, if_pos ⟨hc.1, hc2⟩, hco, readLE_take data k _ 2 (by omega)]
    · have hcn : ¬ (readLE data 0 2 &&& 32 ≠ 0 ∧ cpCrankStart (readLE data 0 2) + 4 ≤ k) := by
        intro hh
        exact hc ⟨hh.1, by rw [hco]; exact hh.2⟩
      rw [if_neg hc, if_neg hcn]

/-- Witness for the amended C1 theorem at the concrete 14-byte payload,
truncated after 10 bytes (the wheel field fits, the crank field does not):
the prefix decode equals the spec field set of the prefix. -/
theorem c1_truncated_prefix_amended_witness :
    cpParseChecked (c1FullPayload.take 10) = some (cpParse (c1FullPayload.take 10))
    ∧ cpParseLoggerChecked (c1FullPayload.take 10) = some (cpParseLogger (c1FullPayload.take 10))
    ∧ cpParse (c1FullPayload.take 10) = cpSpecFields c1FullPayload 10 := by
  have h := c1_truncated_prefix_amended c1FullPayload 10 (by decide) (by decide)
  exact ⟨h.1, h.2.1, h.2.2 (Or.inr (by decide))⟩

/-- Persistent per-metric tracker state: the attribute pairs
`last_crank_revs`/`last_crank_time` resp. `last_wheel_revs`/`last_wheel_time`
of `WahooDeviceHandler` (both initialised to `None`). -/
structure TrackerState where
  lastRevs : Option ℤ := none
  lastTime : Option ℤ := none
deriving DecidableEq, Repr

/-- Fixed wheel circumference in metres
(`self.wheel_circumference_m = 2.105`). -/
def wheelCircumference : ℚ := 2.105

/-- Embedding of `WahooDeviceHandler.calculate_cadence`
(`UnityIntegration/wahoo_unity_bridge.py` lines 215-235).  Python `&` 0xFFFF
on arbitrary-precision ints is reduction modulo 2^16 (also for negative
differences), which `Int.emod` matches; float arithmetic is modelled exactly
in `ℚ`.  Note the tracker is advanced before the plausibility test. -/
def calcCadence (s : TrackerState) (crankRevs crankTime : ℤ) :
    TrackerState × Option ℚ :=
  match s.lastRevs, s.lastTime with
  | some lr, some lt =>
    let revDiff : ℤ := (crankRevs - lr) % 65536
    let timeDiff : ℤ := (crankTime - lt) % 65536
    if timeDiff = 0 ∨ revDiff = 0 then (s, none)
    else
      let cadence : ℚ := ((revDiff * 1024 * 60 : ℤ) : ℚ) / ((timeDiff : ℤ) : ℚ)
      (⟨some crankRevs, some crankTime⟩,
        if 0 < cadence ∧ cadence < 255 then some cadence else none)
  | _, _ => (⟨some crankRevs, some crankTime⟩, none)

/-- Embedding of `WahooDeviceHandler.calculate_speed`
(`UnityIntegration/wahoo_unity_bridge.py` lines 237-259): count delta modulo
2^32, time delta modulo 2^16, speed in km/h via the fixed circumference. -/
def calcSpeed (s : TrackerState) (wheelRevs wheelTime : ℤ) :
    TrackerState × Option ℚ :=
  match s.lastRevs, s.lastTime with
  | some lr, some lt =>
    let revDiff : ℤ := (wheelRevs - lr) % 4294967296
    let timeDiff : ℤ := (wheelTime - lt) % 65536
    if timeDiff = 0 ∨ revDiff = 0 then (s, none)
    else
      let speedMs : ℚ := ((revDiff : ℤ) : ℚ) * wheelCircumference * 1024 / ((timeDiff : ℤ) : ℚ)
      let speedKmh : ℚ := speedMs * 3.6
      (⟨some wheelRevs, some wheelTime⟩,
        if 0 < speedKmh ∧ speedKmh < 100 then some speedKmh else none)
  | _, _ => (⟨some wheelRevs, some wheelTime⟩, none)

/-- The exact rational cadence value computed on the non-seed, nonzero-delta
path of `calcCadence`. -/
def cadenceVal (lr lt r t : ℤ) : ℚ :=
  ((((r - lr) % 65536) * 1024 * 60 : ℤ) : ℚ) / ((((t - lt) % 65536 : ℤ)) : ℚ)

/-- The exact rational speed value computed on the non-seed, nonzero-delta
path of `calcSpeed`. -/
def speedVal (lr lt r t : ℤ) : ℚ :=
  (((r - lr) % 4294967296 : ℤ) : ℚ) * wheelCircumference * 1024
    / ((((t - lt) % 65536 : ℤ)) : ℚ) * 3.6

theorem calcCadence_seed (s : TrackerState) (r t : ℤ)
    (h : s.lastRevs = none ∨ s.lastTime = none) :
    calcCadence s r t = (⟨some r, some t⟩, none) := by
  obtain ⟨a, b⟩ := s
  rcases h with h | h
  · simp only at h
    subst h
    cases b <;> simp [calcCadence]
  · simp only at h
    subst h
    cases a <;> simp [calcCadence]

theorem calcSpeed_seed (s : TrackerState) (r t : ℤ)
    (h : s.lastRevs = none ∨ s.lastTime = none) :
    calcSpeed s r t = (⟨some r, some t⟩, none) := by
  obtain ⟨a, b⟩ := s
  rcases h with h | h
  · simp only at h
    subst h
    cases b <;> simp [calcSpeed]
  · simp only at h
    subst h
    cases a <;> simp [calcSpeed]

theorem calcCadence_zero (lr lt r t : ℤ)
    (h : (t - lt) % 65536 = 0 ∨ (r - lr) % 65536 = 0) :
    calcCadence ⟨some lr, some lt⟩ r t = (⟨some lr, some lt⟩, none) := by
  simp only [calcCadence]
  rw [if_pos h]

theorem calcSpeed_zero (lr lt r t : ℤ)
    (h : (t - lt) % 65536 = 0 ∨ (r - lr) % 4294967296 = 0) :
    calcSpeed ⟨some lr, some lt⟩ r t = (⟨some lr, some lt⟩, none) := by
  simp only [calcSpeed]
  rw [if_pos h]

theorem calcCadence_go (lr lt r t : ℤ)
    (h : ¬ ((t - lt) % 65536 = 0 ∨ (r - lr) % 65536 = 0)) :
    calcCadence ⟨some lr, some lt⟩ r t = (⟨some r, some t⟩,
      if 0 < cadenceVal lr lt r t ∧ cadenceVal lr lt r t < 255 then
        some (cadenceVal lr lt r t) else none) := by
  simp only [calcCadence, cadenceVal]
  rw [if_neg h]

theorem calcSpeed_go (lr lt r t : ℤ)
    (h : ¬ ((t - lt) % 65536 = 0 ∨ (r - lr) % 4294967296 = 0)) :
    calcSpeed ⟨some lr, some lt⟩ r t = (⟨some r, some t⟩,
      if 0 < speedVal lr lt r t ∧ speedVal lr lt r t < 100 then
        some (speedVal lr lt r t) else none) := by
  simp only [calcSpeed, speedVal]
  rw [if_neg h]

/-- C2: for both rate trackers the first call stores the raw count and time
pair and returns no rate; every later call computes the count delta as
(raw - last) mod 2^16 for crank and mod 2^32 for wheel and the time delta as
(raw - last) mod 2^16, and when either delta is zero it returns no rate with
the stored pair unchanged; otherwise the rate is computed from exactly these
modular deltas. -/
theorem c2_rate_tracker_moduli :
    (∀ s r t, (s.lastRevs = none ∨ s.lastTime = none) →
      calcCadence s r t = (⟨some r, some t⟩, none)
      ∧ calcSpeed s r t = (⟨some r, some t⟩, none))
    ∧ (∀ lr lt r t : ℤ, ((r - lr) % 65536 = 0 ∨ (t - lt) % 65536 = 0) →
      calcCadence ⟨some lr, some lt⟩ r t = (⟨some lr, some lt⟩, none))
    ∧ (∀ lr lt r t : ℤ, ((r - lr) % 4294967296 = 0 ∨ (t - lt) % 65536 = 0) →
      calcSpeed ⟨some lr, some lt⟩ r t = (⟨some lr, some lt⟩, none))
    ∧ (∀ lr lt r t : ℤ, (r - lr) % 65536 ≠ 0 → (t - lt) % 65536 ≠ 0 →
      calcCadence ⟨some lr, some lt⟩ r t = (⟨some r, some t⟩,
        if 0 < cadenceVal lr lt r t ∧ cadenceVal lr lt r t < 255 then
          some (cadenceVal lr lt r t) else none))
    ∧ (∀ lr lt r t : ℤ, (r - lr) % 4294967296 ≠ 0 → (t - lt) % 65536 ≠ 0 →
      calcSpeed ⟨some lr, some lt⟩ r t = (⟨some r, some t⟩,
        if 0 < speedVal lr lt r t ∧ speedVal lr lt r t < 100 then
          some (speedVal lr lt r t) else none)) := by
  refine ⟨fun s r t h => ⟨calcCadence_seed s r t h, calcSpeed_seed s r t h⟩,
    fun lr lt r t h => calcCadence_zero lr lt r t (by tauto),
    fun lr lt r t h => calcSpeed_zero lr lt r t (by tauto),
    fun lr lt r t h1 h2 => calcCadence_go lr lt r t (by tauto),
    fun lr lt r t h1 h2 => calcSpeed_go lr lt r t (by tauto)⟩

/-- Witness for C2 at concrete samples: a seeding call, a zero time delta,
a zero (wrapped) count delta, and two nonzero-delta calls whose rates are
120 rpm and 7.578 km/h. -/
theorem c2_rate_tracker_moduli_witness :
    calcCadence ⟨none, none⟩ 5 100 = (⟨some 5, some 100⟩, none)
    ∧ calcCadence ⟨some 5, some 100⟩ 9 100 = (⟨some 5, some 100⟩, none)
    ∧ calcSpeed ⟨some 0, some 0⟩ 4294967296 500 = (⟨some 0, some 0⟩, none)
    ∧ calcCadence ⟨some 0, some 0⟩ 2 1024 = (⟨some 2, some 1024⟩, some 120)
    ∧ calcSpeed ⟨some 0, some 0⟩ 7 7168 = (⟨some 7, some 7168⟩, some (3789/500)) := by
  have h := c2_rate_tracker_moduli
  refine ⟨(h.1 ⟨none, none⟩ 5 100 (Or.inl rfl)).1,
    h.2.1 5 100 9 100 (Or.inr (by decide)),
    h.2.2.1 0 0 4294967296 500 (Or.inl (by decide)), ?_, ?_⟩
  · rw [h.2.2.2.1 0 0 2 1024 (by decide) (by decide)]
    norm_num [cadenceVal]
  · rw [h.2.2.2.2 0 0 7 7168 (by decide) (by decide)]
    norm_num [speedVal, wheelCircumference]

/-- C5, counterexample: with the crank tracker at (0, 0), the sample (100, 1)
computes cadence 100*1024*60/1 = 6144000 rpm, rejects it as implausible and
returns no rate - yet the stored pair has advanced to (100, 1).  The claim
says the stored last count and time advance only when a rate is accepted and
returned, so the claim is false on this input. -/
theorem c5_reject_advances_cex :
    (calcCadence ⟨some 0, some 0⟩ 100 1).2 = none
    ∧ (calcCadence ⟨some 0, some 0⟩ 100 1).1 = ⟨some 100, some 1⟩
    ∧ TrackerState.mk (some 100) (some 1) ≠ ⟨some 0, some 0⟩ := by
  have h := calcCadence_go 0 0 100 1 (by decide)
  refine ⟨?_, ?_, by decide⟩
  · rw [h]
    norm_num [cadenceVal]
  · rw [h]

/-- C5, amended: a computed cadence outside (0, 255) rpm or speed outside
(0, 100) km/h (with the stated formulas and circumference 2.105 m) is
silently discarded, returning no rate; but the tracker's stored last
count and time advance on every call with both deltas nonzero - including a
call whose result is rejected as implausible - not only on accepted rates. -/
theorem c5_plausibility_amended :
    (∀ lr lt r t : ℤ, (r - lr) % 65536 ≠ 0 → (t - lt) % 65536 ≠ 0 →
      (calcCadence ⟨some lr, some lt⟩ r t).1 = ⟨some r, some t⟩
      ∧ (calcCadence ⟨some lr, some lt⟩ r t).2
          = (if 0 < cadenceVal lr lt r t ∧ cadenceVal lr lt r t < 255 then
              some (cadenceVal lr lt r t) else none))
    ∧ (∀ lr lt r t : ℤ, (r - lr) % 4294967296 ≠ 0 → (t - lt) % 65536 ≠ 0 →
      (calcSpeed ⟨some lr, some lt⟩ r t).1 = ⟨some r, some t⟩
      ∧ (calcSpeed ⟨some lr, some lt⟩ r t).2
          = (if 0 < speedVal lr lt r t ∧ speedVal lr lt r t < 100 then
              some (speedVal lr lt r t) else none)) := by
  constructor
  · intro lr lt r t h1 h2
    rw [calcCadence_go lr lt r t (by tauto)]
    exact ⟨rfl, rfl⟩
  · intro lr lt r t h1 h2
    rw [calcSpeed_go lr lt r t (by tauto)]
    exact ⟨rfl, rfl⟩

/-- Witness for the amended C5 at concrete implausible samples: both an
out-of-range cadence (6144000 rpm) and an out-of-range speed are discarded
while the trackers still advance. -/
theorem c5_plausibility_amended_witness :
    (calcCadence ⟨some 0, some 0⟩ 100 1).1 = ⟨some 100, some 1⟩
    ∧ (calcCadence ⟨some 0, some 0⟩ 100 1).2 = none
    ∧ (calcSpeed ⟨some 0, some 0⟩ 1000 1).1 = ⟨some 1000, some 1⟩
    ∧ (calcSpeed ⟨some 0, some 0⟩ 1000 1).2 = none := by
  have h1 := c5_plausibility_amended.1 0 0 100 1 (by decide) (by decide)
  have h2 := c5_plausibility_amended.2 0 0 1000 1 (by decide) (by decide)
  refine ⟨h1.1, ?_, h2.1, ?_⟩
  · rw [h1.2]
    norm_num [cadenceVal]
  · rw [h2.2]
    norm_num [speedVal, wheelCircumference]

/-- C9, counterexample: the second wheel call on samples (0,0), (7,7168)
returns exactly 7*2.105*1024/7168*3.6 = 7.578 km/h, which is not
approximately 7.67 km/h: it falls more than 0.09 km/h below it (7.578 rounds
to 7.58). -/
theorem c9_speed_value_cex :
    (calcSpeed ⟨some 0, some 0⟩ 7 7168).2 = some (3789/500)
    ∧ (3789/500 : ℚ) + 9/100 < 767/100 := by
  constructor
  · rw [calcSpeed_go 0 0 7 7168 (by decide)]
    norm_num [speedVal, wheelCircumference]
  · norm_num

/-- C9, amended: with circumference 2.105 m, the first wheel sample (0,0)
seeds the tracker and returns no rate; the second call at (7,7168) returns
speed 7*2.105*1024/7168*3.6 km/h, which is exactly 7.578 (approximately
7.58, not 7.67). -/
theorem c9_speed_value_amended :
    calcSpeed ⟨none, none⟩ 0 0 = (⟨some 0, some 0⟩, none)
    ∧ (calcSpeed ⟨some 0, some 0⟩ 7 7168).1 = ⟨some 7, some 7168⟩
    ∧ (calcSpeed ⟨some 0, some 0⟩ 7 7168).2 = some (7 * 2.105 * 1024 / 7168 * 3.6)
    ∧ (7 * (2.105 : ℚ) * 1024 / 7168 * 3.6) = 7578/1000 := by
  refine ⟨calcSpeed_seed _ 0 0 (Or.inl rfl), ?_, ?_, by norm_num⟩
  · rw [calcSpeed_go 0 0 7 7168 (by decide)]
  · rw [calcSpeed_go 0 0 7 7168 (by decide)]
    norm_num [speedVal, wheelCircumference]

/-- Result of the logger Heart-Rate parser: dictionary keys `bpm` and
`rr_intervals_ms`. -/
structure HRResult where
  bpm : Option Nat := none
  rrIntervalsMs : Option (List Nat) := none
deriving DecidableEq, Repr

/-- The 16-bit little-endian words consumed pairwise from a byte list (the
shape of the RR-interval loop: it runs while at least two bytes remain). -/
def rrWords : List Nat → List Nat
  | b0 :: b1 :: rest => (b0 + 256 * b1) :: rrWords rest
  | _ => []

/-- The RR-interval loop of the logger Heart-Rate parser: each 1/1024-second
word is converted to milliseconds by `int((rr_1024 / 1024.0) * 1000)`.  The
float value `rr_1024 * 1000 / 1024` is exactly representable in IEEE double
(numerator below 2^26, power-of-two denominator), so Python `int()`
truncation equals natural-number division here. -/
def rrLoop : List Nat → List Nat
  | b0 :: b1 :: rest => (b0 + 256 * b1) * 1000 / 1024 :: rrLoop rest
  | _ => []

/-- Embedding of `HeartRateParser.parse` of `wahoo_ble_logger.py` (lines
96-135).  The outer `none` models the `struct.error` raised by
`struct.unpack_from("<H", data, 1)` when fewer than two bytes remain after
the flags byte; this parser has no try/except around it. -/
def hrParseLogger (data : List Nat) : Option HRResult :=
  if data.length < 2 then some {} else
  let flags := data.getD 0 0
  let hrFormat := flags &&& 1
  (if hrFormat = 0 then some (data.getD 1 0)
   else readLEChecked data 1 2).bind fun bpm =>
  let offset := if hrFormat = 0 then 2 else 3
  let hasRR := flags &&& 16 ≠ 0
  let rrIntervals :=
    if hasRR ∧ offset + 2 ≤ data.length then rrLoop (data.drop offset) else []
  some { bpm := some bpm
         rrIntervalsMs := if rrIntervals ≠ [] then some rrIntervals else none }

/-- Embedding of `HeartRateParser.parse` of
`UnityIntegration/wahoo_unity_bridge.py` (lines 175-188): that variant reads
by slicing (`int.from_bytes(data[1:3], ...)`), which cannot raise, and only
returns the `bpm` key. -/
def hrParseBridge (data : List Nat) : Option Nat :=
  if data.length < 2 then none else
  let flags := data.getD 0 0
  if flags &&& 1 = 0 then some (data.getD 1 0)
  else some (readLE data 1 2)

theorem rrLoop_eq : ∀ l : List Nat,
    rrLoop l = (rrWords l).map (fun v => v * 1000 / 1024)
  | [] => rfl
  | [_] => rfl
  | b0 :: b1 :: rest => by
    rw [rrLoop, rrWords, List.map_cons, rrLoop_eq rest]

theorem rrLoop_ne_nil (l : List Nat) (h : 2 ≤ l.length) : rrLoop l ≠ [] := by
  match l, h with
  | b0 :: b1 :: rest, _ => simp [rrLoop]

/-- The millisecond truncation of an RR word sits within 1 ms below the
exact value: 0 ≤ v*1000/1024 − int(v*1000/1024) < 1. -/
theorem rrMs_close (v : Nat) :
    0 ≤ (v : ℚ) * 1000 / 1024 - ((v * 1000 / 1024 : Nat) : ℚ)
    ∧ (v : ℚ) * 1000 / 1024 - ((v * 1000 / 1024 : Nat) : ℚ) < 1 := by
  have h1 : (v * 1000 / 1024 : Nat) * 1024 ≤ v * 1000 :=
    Nat.div_mul_le_self (v * 1000) 1024
  have h2 : v * 1000 < (v * 1000 / 1024 + 1) * 1024 := by omega
  constructor
  · rw [sub_nonneg, le_div_iff₀ (by norm_num : (0:ℚ) < 1024)]
    exact_mod_cast h1
  · rw [sub_lt_iff_lt_add]
    rw [div_lt_iff₀ (by norm_num : (0:ℚ) < 1024)]
    calc (v : ℚ) * 1000 < ((v * 1000 / 1024 + 1 : Nat) : ℚ) * 1024 := by
          exact_mod_cast h2
    _ = (1 + ((v * 1000 / 1024 : Nat) : ℚ)) * 1024 := by
          push_cast
          ring

/-- C4: evaluation at the failing input.  The two-byte Heart-Rate payload
[0x01, 0x50] is not below the format minimum (2 bytes), yet its flags byte
selects the 16-bit heart-rate format, so the logger parser calls
`struct.unpack_from("<H", data, 1)` with only one byte remaining and a
`struct.error` escapes the decode boundary (modelled by `none`); it does not
degrade to a field set.  One byte more and the parser returns normally. -/
theorem c4_hr_sixteen_bit_short_raises :
    hrParseLogger [1, 80] = none
    ∧ ¬ (([1, 80] : List Nat).length < 2)
    ∧ hrParseLogger [1, 80, 0] = some { bpm := some 80, rrIntervalsMs := none } := by
  refine ⟨by decide, by decide, by decide⟩

/-- C7, counterexample: the valid Heart-Rate payload [0x10, 60, 0x01, 0x00]
(flags bit 4 set, 8-bit rate 60, one RR word of raw value 1 = 1/1024 s)
decodes its RR interval to `int((1/1024)*1000)` = 0 ms, while the claim's
conversion `round(1/1024*1000)` gives 1 ms: the code truncates, it does not
round. -/
theorem c7_rr_rounding_cex :
    hrParseLogger [16, 60, 1, 0]
      = some { bpm := some 60, rrIntervalsMs := some [0] }
    ∧ round ((1 : ℚ) * 1000 / 1024) = 1
    ∧ (0 : ℤ) ≠ 1 := by
  refine ⟨by decide, ?_, by decide⟩
  rw [round_eq]
  norm_num

/-- C7, amended: for every valid Heart-Rate payload with the RR flag (bit 4)
set and at least one full RR word after the rate field, every 16-bit word in
the remainder is decoded, each converted to milliseconds by truncation,
ms = int(value*1000/1024) (Python `int()`, not `round`); each decoded value
lies within 1 ms below the exact value/1024*1000, so re-encoding the
millisecond values recovers the original byte representation within the
claimed ±1 ms. -/
theorem c7_rr_intervals_amended (data : List Nat)
    (hrr : data.getD 0 0 &&& 16 ≠ 0)
    (hfit : (if data.getD 0 0 &&& 1 = 0 then 2 else 3) + 2 ≤ data.length) :
    hrParseLogger data = some
      { bpm := some (if data.getD 0 0 &&& 1 = 0 then data.getD 1 0 else readLE data 1 2)
        rrIntervalsMs := some ((rrWords (data.drop
            (if data.getD 0 0 &&& 1 = 0 then 2 else 3))).map (fun v => v * 1000 / 1024)) }
    ∧ ∀ v : Nat,
        0 ≤ (v : ℚ) * 1000 / 1024 - ((v * 1000 / 1024 : Nat) : ℚ)
        ∧ (v : ℚ) * 1000 / 1024 - ((v * 1000 / 1024 : Nat) : ℚ) < 1 := by
  refine ⟨?_, rrMs_close⟩
  by_cases hb : data.getD 0 0 &&& 1 = 0
  · rw [if_pos hb] at hfit
    have h2 : ¬ data.length < 2 := by omega
    have hne : rrLoop (data.drop 2) ≠ [] :=
      rrLoop_ne_nil _ (by rw [List.length_drop]; omega)
    simp only [hrParseLogger]
    rw [if_neg h2, if_pos hb, Option.some_bind, if_pos hb,
      if_pos (And.intro hrr hfit), if_pos hne, if_pos hb, rrLoop_eq]
  · rw [if_neg hb] at hfit
    have h2 : ¬ data.length < 2 := by omega
    have hread : readLEChecked data 1 2 = some (readLE data 1 2) := by
      simp only [readLEChecked]
      rw [if_pos (by omega)]
    have hne : rrLoop (data.drop 3) ≠ [] :=
      rrLoop_ne_nil _ (by rw [List.length_drop]; omega)
    simp only [hrParseLogger]
    rw [if_neg h2, if_neg hb, hread, Option.some_bind, if_neg hb,
      if_pos (And.intro hrr hfit), if_pos hne, if_neg hb, rrLoop_eq]

/-- Witness for the amended C7 at the payload [0x10, 60, 0x01, 0x00]: the
single RR word 1 decodes to 0 ms, and 0 is within 1 ms of the exact
1000/1024 ms. -/
theorem c7_rr_intervals_amended_witness :
    hrParseLogger [16, 60, 1, 0]
      = some { bpm := some 60, rrIntervalsMs := some [0] }
    ∧ 0 ≤ (1 : ℚ) * 1000 / 1024 - ((1 * 1000 / 1024 : Nat) : ℚ)
    ∧ (1 : ℚ) * 1000 / 1024 - ((1 * 1000 / 1024 : Nat) : ℚ) < 1 := by
  have h := c7_rr_intervals_amended [16, 60, 1, 0] (by decide) (by decide)
  refine ⟨?_, (h.2 1).1, (h.2 1).2⟩
  rw [h.1]
  decide

/-- The bridge's telemetry record (`CyclingData`): timestamp in seconds,
power in watts (signed, as decoded from the wire), cadence in rpm, speed in
km/h, heart rate in bpm. -/
structure Snap where
  timestamp : ℚ
  power : ℤ
  cadence : ℚ
  speed : ℚ
  heartRate : ℤ
deriving DecidableEq, Repr

/-- Mutable state of a `WahooDeviceHandler`: the two rollover trackers and
the activity clock `last_update_time` read by the zero-detection loop. -/
structure HandlerState where
  crank : TrackerState := {}
  wheel : TrackerState := {}
  lastUpdateTime : ℚ := 0
deriving DecidableEq, Repr

/-- Embedding of the cycling-power notification callback of
`WahooDeviceHandler.connect_and_stream` (lines 331-375): decode the payload,
merge power over the current snapshot, derive cadence (from crank data, else
the power/speed heuristic), derive speed from wheel data, keep the heart
rate, and stamp `self.last_update_time = time.time()` unconditionally.
`cur` is `self.bridge.current_data`; the returned snapshot is what
`broadcast_data` stores and sends. -/
def powerCallback (h : HandlerState) (cur : Snap) (payload : List Nat)
    (now : ℚ) : HandlerState × Snap :=
  let parsed := cpParse payload
  let power : ℤ := parsed.power.getD cur.power
  let speed0 := cur.speed
  let crankStep : TrackerState × ℚ :=
    match parsed.crankRevs, parsed.crankTime with
    | some cr, some ct =>
      let r := calcCadence h.crank (cr : ℤ) (ct : ℤ)
      (r.1, r.2.getD cur.cadence)
    | _, _ =>
      (h.crank,
        if 0 < power ∧ 0 < speed0 then
          min (max ((power : ℚ) / 2.5 + speed0 * 2) 0) 180
        else cur.cadence)
  let wheelStep : TrackerState × ℚ :=
    match parsed.wheelRevs, parsed.wheelTime with
    | some wr, some wt =>
      let r := calcSpeed h.wheel (wr : ℤ) (wt : ℤ)
      (r.1, r.2.getD cur.speed)
    | _, _ => (h.wheel, cur.speed)
  ({ crank := crankStep.1, wheel := wheelStep.1, lastUpdateTime := now },
   { timestamp := now, power := power, cadence := crankStep.2,
     speed := wheelStep.2, heartRate := cur.heartRate })

/-- Embedding of the heart-rate notification callback (lines 311-325): on a
successful decode the merged snapshot is broadcast while the handler state -
in particular the activity clock - is untouched (the code comments "HR
doesn't reset activity timer"); on a failed decode nothing happens. -/
def hrCallback (h : HandlerState) (cur : Snap) (payload : List Nat)
    (now : ℚ) : HandlerState × Snap :=
  match hrParseBridge payload with
  | some bpm =>
    (h, { timestamp := now, power := cur.power, cadence := cur.cadence,
          speed := cur.speed, heartRate := (bpm : ℤ) })
  | none => (h, cur)

/-- The inactivity timeout `self.zero_timeout = 1.2` seconds. -/
def zeroTimeout : ℚ := 1.2

/-- One iteration of `WahooDeviceHandler.zero_detection_loop` (lines
261-282) evaluated at time `now`: if no power-stream update arrived within
the timeout and the current snapshot has positive power, cadence or speed,
broadcast (and store as current) an all-zero snapshot keeping the heart
rate.  The second component is the zero-update emitted, if any. -/
def zeroTick (h : HandlerState) (cur : Snap) (now : ℚ) : Snap × Option Snap :=
  if zeroTimeout < now - h.lastUpdateTime then
    if 0 < cur.power ∨ 0 < cur.cadence ∨ 0 < cur.speed then
      let zeroData : Snap := { timestamp := now, power := 0, cadence := 0,
                               speed := 0, heartRate := cur.heartRate }
      (zeroData, some zeroData)
    else (cur, none)
  else (cur, none)

/-- One scheduler event of the bridge: a cycling-power notification, a
heart-rate notification, or one poll of the zero-detection loop. -/
inductive BridgeEv where
  | powerNotif (payload : List Nat) (now : ℚ)
  | hrNotif (payload : List Nat) (now : ℚ)
  | tick (now : ℚ)
deriving DecidableEq, Repr

/-- Whether an event is a cycling-power notification. -/
def isPowerNotif : BridgeEv → Bool
  | .powerNotif _ _ => true
  | _ => false

/-- Apply one event to (handler state, current snapshot); the optional
output is the zero-update emitted by the inactivity detector, if any. -/
def stepEv : HandlerState × Snap → BridgeEv → (HandlerState × Snap) × Option Snap
  | (h, cur), .powerNotif pl t => (powerCallback h cur pl t, none)
  | (h, cur), .hrNotif pl t => (hrCallback h cur pl t, none)
  | (h, cur), .tick t =>
    let r := zeroTick h cur t
    ((h, r.1), r.2)

/-- The zero-updates emitted along a trace of events. -/
def zeroEmits : HandlerState × Snap → List BridgeEv → List Snap
  | _, [] => []
  | s, e :: evs =>
    let r := stepEv s e
    r.2.toList ++ zeroEmits r.1 evs

/-- A snapshot with no positive power, cadence or speed (the state after a
zero-update; cadence and speed are in fact never negative). -/
def allZero (cur : Snap) : Prop :=
  cur.power ≤ 0 ∧ cur.cadence ≤ 0 ∧ cur.speed ≤ 0

theorem zeroTick_allZero (h : HandlerState) (cur : Snap) (now : ℚ)
    (hz : allZero cur) : zeroTick h cur now = (cur, none) := by
  obtain ⟨h1, h2, h3⟩ := hz
  unfold zeroTick
  by_cases ht : zeroTimeout < now - h.lastUpdateTime
  · rw [if_pos ht, if_neg (by push_neg; exact ⟨by omega, by linarith, by linarith⟩)]
  · rw [if_neg ht]

theorem hrCallback_fields (h : HandlerState) (cur : Snap) (pl : List Nat)
    (t : ℚ) :
    (hrCallback h cur pl t).2.power = cur.power
    ∧ (hrCallback h cur pl t).2.cadence = cur.cadence
    ∧ (hrCallback h cur pl t).2.speed = cur.speed := by
  unfold hrCallback
  cases hrParseBridge pl <;> exact ⟨rfl, rfl, rfl⟩

theorem zeroEmits_of_allZero (s : HandlerState × Snap) (evs : List BridgeEv)
    (hz : allZero s.2) (hnp : ∀ e ∈ evs, isPowerNotif e = false) :
    zeroEmits s evs = [] := by
  induction evs generalizing s with
  | nil => rfl
  | cons e evs ih =>
    obtain ⟨h, cur⟩ := s
    match e with
    | .powerNotif pl t =>
      have := hnp _ (List.mem_cons_self _ _)
      simp [isPowerNotif] at this
    | .hrNotif pl t =>
      have hfield := hrCallback_fields h cur pl t
      simp only [zeroEmits, stepEv, Option.toList_none, List.nil_append]
      exact ih _ ⟨by rw [hfield.1]; exact hz.1, by rw [hfield.2.1]; exact hz.2.1,
        by rw [hfield.2.2]; exact hz.2.2⟩ (fun e he => hnp e (List.mem_cons_of_mem _ he))
    | .tick t =>
      simp only [zeroEmits, stepEv]
      rw [zeroTick_allZero h cur t hz]
      simp only [Option.toList_none, List.nil_append]
      exact ih _ hz (fun e he => hnp e (List.mem_cons_of_mem _ he))

/-- Concrete snapshot for the C6 counterexample: decoded power -1 W (the
decoder passes negative signed power through unclamped), cadence and speed
zero, heart rate 100. -/
def c6Cur : Snap :=
  { timestamp := 0, power := -1, cadence := 0, speed := 0, heartRate := 100 }

/-- C6, counterexample: at time 2 the inactivity timeout (1.2 s since the
last power update at time 0) is exceeded and the snapshot has nonzero power
(-1 W), so the claim requires a zero-update to be issued; the code's guard
tests `current.power > 0` - strictly positive, not nonzero - and issues
none. -/
theorem c6_zero_update_cex :
    (c6Cur.power ≠ 0 ∨ c6Cur.cadence ≠ 0 ∨ c6Cur.speed ≠ 0)
    ∧ zeroTimeout < 2 - ({} : HandlerState).lastUpdateTime
    ∧ (zeroTick {} c6Cur 2).2 = none := by
  refine ⟨Or.inl (by decide), ?_, ?_⟩
  · show zeroTimeout < 2 - (0 : ℚ)
    norm_num [zeroTimeout]
  · unfold zeroTick
    rw [if_pos (show zeroTimeout < 2 - ({} : HandlerState).lastUpdateTime by
        show zeroTimeout < 2 - (0 : ℚ)
        norm_num [zeroTimeout]),
      if_neg (by norm_num [c6Cur])]

/-- C6, amended: when a zero-detection poll at time `now` finds the timeout
(1.2 s) exceeded and any of power/cadence/speed strictly positive (the code
guards on `> 0`, not nonzero - a negative decoded power never triggers it),
exactly one zero-update is issued: power, cadence and speed zeroed, heart
rate kept, the zero snapshot stored as current; along any further events
containing no power-stream notification no further zero-update is emitted;
and a power notification whose decode yields positive power stamps the
activity clock with its arrival time and restores positive power. -/
theorem c6_zero_update_amended :
    (∀ (h : HandlerState) (cur : Snap) (now : ℚ),
      zeroTimeout < now - h.lastUpdateTime →
      (0 < cur.power ∨ 0 < cur.cadence ∨ 0 < cur.speed) →
      zeroTick h cur now =
        ({ timestamp := now, power := 0, cadence := 0, speed := 0,
           heartRate := cur.heartRate },
         some { timestamp := now, power := 0, cadence := 0, speed := 0,
                heartRate := cur.heartRate }))
    ∧ (∀ (h : HandlerState) (cur : Snap) (now : ℚ) (evs : List BridgeEv),
      zeroTimeout < now - h.lastUpdateTime →
      (0 < cur.power ∨ 0 < cur.cadence ∨ 0 < cur.speed) →
      (∀ e ∈ evs, isPowerNotif e = false) →
      zeroEmits (h, cur) (BridgeEv.tick now :: evs) =
        [{ timestamp := now, power := 0, cadence := 0, speed := 0,
           heartRate := cur.heartRate }])
    ∧ (∀ (h : HandlerState) (cur : Snap) (payload : List Nat) (now : ℚ)
        (p : ℤ), (cpParse payload).power = some p → 0 < p →
      (powerCallback h cur payload now).1.lastUpdateTime = now
      ∧ (powerCallback h cur payload now).2.power = p
      ∧ 0 < (powerCallback h cur payload now).2.power) := by
  have hfire : ∀ (h : HandlerState) (cur : Snap) (now : ℚ),
      zeroTimeout < now - h.lastUpdateTime →
      (0 < cur.power ∨ 0 < cur.cadence ∨ 0 < cur.speed) →
      zeroTick h cur now =
        ({ timestamp := now, power := 0, cadence := 0, speed := 0,
           heartRate := cur.heartRate },
         some { timestamp := now, power := 0, cadence := 0, speed := 0,
                heartRate := cur.heartRate }) := by
    intro h cur now ht hg
    unfold zeroTick
    rw [if_pos ht, if_pos hg]
  have hpw : ∀ (h : HandlerState) (cur : Snap) (payload : List Nat) (now : ℚ)
      (p : ℤ), (cpParse payload).power = some p →
      (powerCallback h cur payload now).2.power = p := by
    intro h cur payload now p hp
    show (cpParse payload).power.getD cur.power = p
    rw [hp]
    rfl
  refine ⟨hfire, ?_, ?_⟩
  · intro h cur now evs ht hg hnp
    simp only [zeroEmits, stepEv]
    rw [hfire h cur now ht hg]
    simp only [Option.toList_some, List.singleton_append]
    rw [zeroEmits_of_allZero _ evs ⟨le_refl 0, le_refl 0, le_refl 0⟩ hnp]
  · intro h cur payload now p hp hpos
    refine ⟨rfl, hpw h cur payload now p hp, ?_⟩
    rw [hpw h cur payload now p hp]
    exact hpos

/-- Concrete snapshot for the C6 witness: power 100 W, heart rate 77. -/
def c6RidingCur : Snap :=
  { timestamp := 0, power := 100, cadence := 0, speed := 0, heartRate := 77 }

/-- Witness for the amended C6: from a 100 W snapshot with the power stream
silent since time 0, the poll at time 2 emits exactly one zero-update
(heart rate 77 kept) and later polls and heart-rate events emit none; a
4-byte power payload decoding to 200 W stamps the clock and restores
positive power. -/
theorem c6_zero_update_amended_witness :
    zeroEmits ({}, c6RidingCur)
        [BridgeEv.tick 2, BridgeEv.hrNotif [0, 70] 3, BridgeEv.tick 10]
      = [{ timestamp := 2, power := 0, cadence := 0, speed := 0,
           heartRate := 77 }]
    ∧ (powerCallback {} c6RidingCur [0, 0, 200, 0] 4).1.lastUpdateTime = 4
    ∧ (powerCallback {} c6RidingCur [0, 0, 200, 0] 4).2.power = 200 := by
  have h := c6_zero_update_amended
  have h2 := h.2.1 {} c6RidingCur 2 [BridgeEv.hrNotif [0, 70] 3, BridgeEv.tick 10]
    (by show zeroTimeout < 2 - (0 : ℚ); norm_num [zeroTimeout])
    (Or.inl (by decide))
    (by
      intro e he
      rcases List.mem_cons.mp he with rfl | he2
      · rfl
      · rcases List.mem_cons.mp he2 with rfl | he3
        · rfl
        · exact absurd he3 (List.not_mem_nil _))
  have h3 := h.2.2 {} c6RidingCur [0, 0, 200, 0] 4 200 (by decide) (by decide)
  exact ⟨h2, h3.1, h3.2.1⟩

/-- Concrete snapshot for the C8 counterexample. -/
def c8Cur : Snap :=
  { timestamp := 0, power := 0, cadence := 0, speed := 0, heartRate := 0 }

/-- C8, counterexample: the empty cycling-power payload fails to decode (the
parser returns the empty field set, in particular no power value), yet the
power callback still stamps the activity clock with the arrival time 5
(line 373 runs unconditionally), so a power-stream notification whose decode
is not successful does advance the ActivityClock, contrary to the claim. -/
theorem c8_activity_clock_cex :
    cpParse [] = {}
    ∧ (cpParse []).power = none
    ∧ (powerCallback {} c8Cur [] 5).1.lastUpdateTime = 5
    ∧ ({} : HandlerState).lastUpdateTime = 0
    ∧ (5 : ℚ) ≠ 0 := by
  refine ⟨by decide, by decide, rfl, rfl, by norm_num⟩

/-- C8, amended: the ActivityClock (`last_update_time`) is stamped with the
arrival time by every cycling-power notification callback - successful
decode or not - and a heart-rate callback never changes the handler state,
in particular never the ActivityClock. -/
theorem c8_activity_clock_amended :
    (∀ (h : HandlerState) (cur : Snap) (payload : List Nat) (now : ℚ),
      (powerCallback h cur payload now).1.lastUpdateTime = now)
    ∧ (∀ (h : HandlerState) (cur : Snap) (payload : List Nat) (now : ℚ),
      (hrCallback h cur payload now).1 = h) := by
  refine ⟨fun h cur payload now => rfl, fun h cur payload now => ?_⟩
  unfold hrCallback
  cases hrParseBridge payload <;> rfl

/-- C10: the SQLite-logger Cycling-Power decoder surfaces at most the
`power_w` key: the cadence and speed keys are never present in its result
(crank revolution data is read but dropped; wheel revolution data only
advances the offset), so the logging pipeline never derives cadence or speed
from a Cycling-Power notification.  Payloads of at least 4 bytes yield the
signed 16-bit power at bytes 2..4; shorter payloads yield the empty field
set. -/
theorem c10_logger_power_only (data : List Nat) :
    (cpParseLogger data).cadenceRpm = none
    ∧ (cpParseLogger data).speedKph = none
    ∧ (4 ≤ data.length →
        (cpParseLogger data).powerW = some (toSigned16 (readLE data 2 2)))
    ∧ (data.length < 4 → cpParseLogger data = {}) := by
  by_cases h4 : data.length < 4
  · have hrw : cpParseLogger data = {} := by
      unfold cpParseLogger
      rw [if_pos h4]
    rw [hrw]
    exact ⟨rfl, rfl, fun hh => absurd hh (by omega), fun _ => rfl⟩
  · have hp : (2 : Nat) + 1 < data.length := by omega
    have hrw : cpParseLogger data =
        { powerW := some (toSigned16 (readLE data 2 2)), cadenceRpm := none,
          speedKph := none } := by
      simp only [cpParseLogger]
      rw [if_neg h4, if_pos hp]
    rw [hrw]
    exact ⟨rfl, rfl, fun _ => rfl, fun hh => absurd hh h4⟩

/-- Witness for C10 at concrete payloads: a 4-byte payload with power 200
yields only the power key; a 1-byte payload yields the empty field set. -/
theorem c10_logger_power_only_witness :
    (cpParseLogger [0, 0, 200, 0]).powerW = some 200
    ∧ (cpParseLogger [0, 0, 200, 0]).cadenceRpm = none
    ∧ (cpParseLogger [0, 0, 200, 0]).speedKph = none
    ∧ cpParseLogger [9] = {} := by
  have h := c10_logger_power_only [0, 0, 200, 0]
  have h2 := c10_logger_power_only [9]
  refine ⟨?_, h.1, h.2.1, h2.2.2.2 (by decide)⟩
  rw [h.2.2.1 (by decide)]
  decide

/-- Little-endian serialization of a value on `n` bytes (one fixed-width
field of `struct.pack('...', ...)` with a little-endian format). -/
def bytesLE : Nat → Nat → List Nat
  | 0, _ => []
  | n + 1, v => v % 256 :: bytesLE n (v / 256)

/-- Embedding of `CyclingData.to_binary` (`struct.pack('dfffi', ...)`,
`UnityIntegration/wahoo_unity_bridge.py` lines 43-55) at the bit level: the
five fields are laid out little-endian with no padding - 8 bytes for the
IEEE-754 double bit pattern of the timestamp, 4 bytes each for the single
bit patterns of `float(power)`, cadence and speed, and 4 bytes for the
two's-complement 32-bit heart rate. -/
def packDfffi (tsBits pwBits cadBits spdBits : Nat) (hr : ℤ) : List Nat :=
  bytesLE 8 tsBits ++ (bytesLE 4 pwBits ++ (bytesLE 4 cadBits ++
    (bytesLE 4 spdBits ++ bytesLE 4 (hr % 4294967296).toNat)))

/-- Decoding a 24-byte `dfffi` frame by the documented layout
(`struct.unpack('dfffi', ...)` as in `mock_wahoo_bridge.py` line 142). -/
def unpackDfffi (frame : List Nat) : Option (Nat × Nat × Nat × Nat × ℤ) :=
  if frame.length = 24 then
    some (readLE frame 0 8, readLE frame 8 4, readLE frame 12 4,
      readLE frame 16 4, toSigned32 (readLE frame 20 4))
  else none

theorem bytesLE_length : ∀ n v : Nat, (bytesLE n v).length = n
  | 0, _ => rfl
  | n + 1, v => by rw [bytesLE, List.length_cons, bytesLE_length n (v / 256)]

theorem fromLE_bytesLE_mod : ∀ n v : Nat, fromLEList (bytesLE n v) = v % 256 ^ n
  | 0, v => by simp [bytesLE, fromLEList, Nat.mod_one]
  | n + 1, v => by
    rw [bytesLE, fromLEList, fromLE_bytesLE_mod n (v / 256), pow_succ,
      mul_comm (256 ^ n) 256, Nat.mod_mul]

theorem fromLE_bytesLE (n v : Nat) (h : v < 256 ^ n) :
    fromLEList (bytesLE n v) = v := by
  rw [fromLE_bytesLE_mod, Nat.mod_eq_of_lt h]

theorem readLE_at (pre mid post : List Nat) (off n v : Nat)
    (hoff : pre.length = off) (hmid : mid = bytesLE n v) (hv : v < 256 ^ n) :
    readLE (pre ++ (mid ++ post)) off n = v := by
  subst hoff
  subst hmid
  unfold readLE
  rw [List.drop_left, List.take_left' (bytesLE_length n v), fromLE_bytesLE n v hv]

theorem readLE_at_end (pre mid : List Nat) (off n v : Nat)
    (hoff : pre.length = off) (hmid : mid = bytesLE n v) (hv : v < 256 ^ n) :
    readLE (pre ++ mid) off n = v := by
  subst hoff
  subst hmid
  unfold readLE
  rw [List.drop_left,
    List.take_of_length_le (le_of_eq (bytesLE_length n v)),
    fromLE_bytesLE n v hv]

/-- The rational value denoted by an IEEE-754 binary32 bit pattern (finite
patterns: normal or subnormal). -/
def val32 (b : Nat) : ℚ :=
  let s : Nat := b / 2 ^ 31
  let e : Nat := b / 2 ^ 23 % 2 ^ 8
  let m : Nat := b % 2 ^ 23
  let mf : ℚ := if e = 0 then (m : ℚ) else 2 ^ 23 + (m : ℚ)
  let ex : ℤ := (if e = 0 then 1 else (e : ℤ)) - 150
  (if s = 1 then -1 else 1) * mf * (2 : ℚ) ^ ex

/-- The rational value denoted by an IEEE-754 binary64 bit pattern (finite
patterns: normal or subnormal). -/
def val64 (b : Nat) : ℚ :=
  let s : Nat := b / 2 ^ 63
  let e : Nat := b / 2 ^ 52 % 2 ^ 11
  let m : Nat := b % 2 ^ 52
  let mf : ℚ := if e = 0 then (m : ℚ) else 2 ^ 52 + (m : ℚ)
  let ex : ℤ := (if e = 0 then 1 else (e : ℤ)) - 1075
  (if s = 1 then -1 else 1) * mf * (2 : ℚ) ^ ex

theorem readLE_head (mid post : List Nat) (n v : Nat)
    (hmid : mid = bytesLE n v) (hv : v < 256 ^ n) :
    readLE (mid ++ post) 0 n = v := by
  subst hmid
  unfold readLE
  rw [List.drop_zero, List.take_left' (bytesLE_length n v), fromLE_bytesLE n v hv]

/-- C3: the binary frame of a snapshot is exactly 24 bytes, little-endian
with no padding, in the order 8-byte double, three 4-byte singles, 4-byte
signed int; decoding those 24 bytes by that layout reproduces all five
stored values exactly.  At the example snapshot (ts=1000.5, power=200,
cadence=85.0, speed=30.2, hr=150) the stored bit patterns are
0x408F440000000000, 0x43480000, 0x42AA0000 and 0x41F1999A, denoting 1000.5,
200 and 85 exactly and the nearest binary32 to 30.2 (within half an ulp,
2^-20, just above it); the heart rate 150 round-trips exactly. -/
theorem c3_frame_roundtrip (ts pw cad spd : Nat) (hr : ℤ)
    (hts : ts < 2 ^ 64) (hpw : pw < 2 ^ 32) (hcad : cad < 2 ^ 32)
    (hspd : spd < 2 ^ 32) (hlo : -2 ^ 31 ≤ hr) (hhi : hr < 2 ^ 31) :
    (packDfffi ts pw cad spd hr).length = 24
    ∧ unpackDfffi (packDfffi ts pw cad spd hr) = some (ts, pw, cad, spd, hr)
    ∧ val64 4652011706887700480 = 2001 / 2
    ∧ val32 1128792064 = 200
    ∧ val32 1118437376 = 85
    ∧ 151 / 5 < val32 1106352538
    ∧ val32 1106352538 < 151 / 5 + 1 / 1048576 := by
  have hts' : ts < 256 ^ 8 := by
    have : (256 : Nat) ^ 8 = 2 ^ 64 := by norm_num
    omega
  have hpw' : pw < 256 ^ 4 := by
    have : (256 : Nat) ^ 4 = 2 ^ 32 := by norm_num
    omega
  have hcad' : cad < 256 ^ 4 := by
    have : (256 : Nat) ^ 4 = 2 ^ 32 := by norm_num
    omega
  have hspd' : spd < 256 ^ 4 := by
    have : (256 : Nat) ^ 4 = 2 ^ 32 := by norm_num
    omega
  have hE0 : 0 ≤ hr % 4294967296 := Int.emod_nonneg hr (by norm_num)
  have hE1 : hr % 4294967296 < 4294967296 := Int.emod_lt_of_pos hr (by norm_num)
  have hEv : (hr % 4294967296).toNat < 256 ^ 4 := by
    have : (256 : Nat) ^ 4 = 4294967296 := by norm_num
    omega
  have hlen : (packDfffi ts pw cad spd hr).length = 24 := by
    simp [packDfffi, bytesLE_length]
  refine ⟨hlen, ?_, by unfold val64; norm_num, by unfold val32; norm_num,
    by unfold val32; norm_num, by unfold val32; norm_num, by unfold val32; norm_num⟩
  have r0 : readLE (packDfffi ts pw cad spd hr) 0 8 = ts :=
    readLE_head (bytesLE 8 ts) _ 8 ts rfl hts'
  have r1 : readLE (packDfffi ts pw cad spd hr) 8 4 = pw :=
    readLE_at (bytesLE 8 ts) (bytesLE 4 pw) _ 8 4 pw (bytesLE_length 8 ts) rfl hpw'
  have hassoc1 : packDfffi ts pw cad spd hr
      = (bytesLE 8 ts ++ bytesLE 4 pw) ++ (bytesLE 4 cad ++
        (bytesLE 4 spd ++ bytesLE 4 (hr % 4294967296).toNat)) := by
    unfold packDfffi
    rw [List.append_assoc]
  have r2 : readLE (packDfffi ts pw cad spd hr) 12 4 = cad := by
    rw [hassoc1]
    exact readLE_at _ (bytesLE 4 cad) _ 12 4 cad
      (by simp [List.length_append, bytesLE_length]) rfl hcad'
  have hassoc2 : packDfffi ts pw cad spd hr
      = ((bytesLE 8 ts ++ bytesLE 4 pw) ++ bytesLE 4 cad) ++
        (bytesLE 4 spd ++ bytesLE 4 (hr % 4294967296).toNat) := by
    rw [hassoc1, ← List.append_assoc]
  have r3 : readLE (packDfffi ts pw cad spd hr) 16 4 = spd := by
    rw [hassoc2]
    exact readLE_at _ (bytesLE 4 spd) _ 16 4 spd
      (by simp [List.length_append, bytesLE_length]) rfl hspd'
  have hassoc3 : packDfffi ts pw cad spd hr
      = (((bytesLE 8 ts ++ bytesLE 4 pw) ++ bytesLE 4 cad) ++ bytesLE 4 spd) ++
        bytesLE 4 (hr % 4294967296).toNat := by
    rw [hassoc2, ← List.append_assoc]
  have r4 : readLE (packDfffi ts pw cad spd hr) 20 4
      = (hr % 4294967296).toNat := by
    rw [hassoc3]
    exact readLE_at_end _ (bytesLE 4 (hr % 4294967296).toNat) 20 4 _
      (by simp [List.length_append, bytesLE_length]) rfl hEv
  have hsig : toSigned32 (hr % 4294967296).toNat = hr := by
    unfold toSigned32
    by_cases hcase : (hr % 4294967296).toNat < 2147483648
    · rw [if_pos hcase]
      omega
    · rw [if_neg hcase]
      omega
  unfold unpackDfffi
  rw [if_pos hlen, r0, r1, r2, r3, r4, hsig]

/-- Witness for C3 at the example snapshot's bit patterns (1000.5, 200.0,
85.0, 30.2 as binary64/32, heart rate 150): the frame is 24 bytes and
decodes back to the same five values. -/
theorem c3_frame_roundtrip_witness :
    (packDfffi 4652011706887700480 1128792064 1118437376 1106352538 150).length = 24
    ∧ unpackDfffi
        (packDfffi 4652011706887700480 1128792064 1118437376 1106352538 150)
      = some (4652011706887700480, 1128792064, 1118437376, 1106352538, 150) := by
  have h := c3_frame_roundtrip 4652011706887700480 1128792064 1118437376
    1106352538 150 (by norm_num) (by norm_num) (by norm_num) (by norm_num)
    (by norm_num) (by norm_num)
  exact ⟨h.1, h.2.1⟩
